import Mathlib

/-!
Verification development for the federate-side network coordination layer
(`src/xtext/org.icyphy.linguafranca/src/lib/C/federate.c`).

The C file is embedded shallowly: socket I/O is represented by explicit
lists of written byte sequences and by explicit input byte lists, the
pthread mutex by lock/unlock events in an event trace, and `exit`/`assert`
failure paths by an error type following the spec's error taxonomy (§7):
`assert(port < 65536)` failing maps to `invalidAddress`, `exit(2)` on retry
exhaustion to `connectionExhausted`, `exit(1)` / `error(...)` on an
unexpected tag to `protocolViolation`.

Helper functions from `util.c` and constants from `rti.h` are not part of
the provided sources; where needed they are modelled from the spec (§4.1,
§6) and marked `Modelled from the spec:` in their doc comments.
-/

set_option autoImplicit false

namespace Federate

/-- Modelled from the spec: `rti.h` (not under the provided sources) defines
the tag bytes as a small closed enumeration whose exact numeric values are
left to the paired RTI implementation (§6); they are fixed here as
distinct constants. -/
def FED_ID : Nat := 1

/-- Modelled from the spec: tag byte for the timestamp handshake frames
(`TimestampQuery` / `TimestampReply`, §4.1). -/
def TIMESTAMP : Nat := 2

/-- Modelled from the spec: tag byte for an untimestamped data message. -/
def MESSAGE : Nat := 3

/-- Modelled from the spec: tag byte for a timestamped data message. -/
def TIMED_MESSAGE : Nat := 5

/-- Errors, following the spec's taxonomy (§7). The C source realises
`invalidAddress` as a failing `assert`, `connectionExhausted` as `exit(2)`,
`protocolViolation` as `exit(1)` or `error(...)`, and `shortRead` as a
failed blocking read (fatal, treated like a protocol violation). -/
inductive FedError where
  | invalidAddress
  | connectionExhausted
  | protocolViolation
  | shortRead
  deriving DecidableEq, Repr

instance {ε α : Type} [DecidableEq ε] [DecidableEq α] : DecidableEq (Except ε α) :=
  fun x y =>
    match x, y with
    | .ok a, .ok b =>
      if h : a = b then .isTrue (by rw [h]) else .isFalse (by simp [h])
    | .error a, .error b =>
      if h : a = b then .isTrue (by rw [h]) else .isFalse (by simp [h])
    | .ok _, .error _ => .isFalse (by simp)
    | .error _, .ok _ => .isFalse (by simp)

/-- Modelled from the spec: `encode_ushort` from `util.c` (not under the
provided sources) — little-endian two-byte encoding of a 16-bit value
(§4.1: all multi-byte fields little-endian). -/
def encode_ushort (v : Nat) : List Nat :=
  [v % 256, v / 256 % 256]

/-- Modelled from the spec: `encode_int` from `util.c` — little-endian
four-byte encoding of the 32-bit length field. -/
def encode_int (v : Nat) : List Nat :=
  [v % 256, v / 256 % 256, v / 65536 % 256, v / 16777216 % 256]

/-- Modelled from the spec: `encode_ll` from `util.c` — little-endian
eight-byte two's-complement encoding of a 64-bit signed instant. -/
def encode_ll (v : Int) : List Nat :=
  [(v % 2 ^ 64).toNat % 256,
   (v % 2 ^ 64).toNat / 256 % 256,
   (v % 2 ^ 64).toNat / 65536 % 256,
   (v % 2 ^ 64).toNat / 16777216 % 256,
   (v % 2 ^ 64).toNat / 4294967296 % 256,
   (v % 2 ^ 64).toNat / 1099511627776 % 256,
   (v % 2 ^ 64).toNat / 281474976710656 % 256,
   (v % 2 ^ 64).toNat / 72057594037927936 % 256]

/-- Modelled from the spec: the 16-bit little-endian extraction performed
by `extract_header` in `util.c`. -/
def extract_ushort (b0 b1 : Nat) : Nat :=
  b0 + 256 * b1

/-- Modelled from the spec: the 32-bit little-endian extraction of the
length field performed by `extract_header` in `util.c`. -/
def extract_uint (b0 b1 b2 b3 : Nat) : Nat :=
  b0 + 256 * b1 + 65536 * b2 + 16777216 * b3

/-- Modelled from the spec: `extract_ll` from `util.c` — little-endian
eight-byte two's-complement decoding of a 64-bit signed instant. -/
def extract_ll (b0 b1 b2 b3 b4 b5 b6 b7 : Nat) : Int :=
  if b0 + 256 * b1 + 65536 * b2 + 16777216 * b3 + 4294967296 * b4
      + 1099511627776 * b5 + 281474976710656 * b6 + 72057594037927936 * b7 < 2 ^ 63
  then (b0 + 256 * b1 + 65536 * b2 + 16777216 * b3 + 4294967296 * b4
      + 1099511627776 * b5 + 281474976710656 * b6 + 72057594037927936 * b7 : Nat)
  else (b0 + 256 * b1 + 65536 * b2 + 16777216 * b3 + 4294967296 * b4
      + 1099511627776 * b5 + 281474976710656 * b6 + 72057594037927936 * b7 : Nat) - 2 ^ 64

/-- A decoded wire frame (spec §3: the data-message variants of `Frame`). -/
inductive Frame where
  | plainMessage (port federate : Nat) (payload : List Nat)
  | timedMessage (port federate : Nat) (payload : List Nat) (timestamp : Int)
  deriving DecidableEq, Repr

/-- `send_via_rti` from `federate.c` (lines 68–85), embedded as a function
from the arguments (plus the message) to the list of byte sequences written
to the socket.  The byte computations reproduce the C source exactly:
`buffer[2] = port & 0xff00` assigns an `unsigned int` to an
`unsigned char`, which truncates modulo 256 — the masked value is kept and
the truncation written explicitly.  The two leading `assert`s fail before
any write; per the spec's taxonomy (§7) that rejection is `invalidAddress`. -/
def send_via_rti (port federate : Nat) (message : List Nat) :
    Except FedError (List (List Nat)) :=
  if port < 65536 ∧ federate < 65536 then
    .ok [[MESSAGE,
          port &&& 0xff,
          (port &&& 0xff00) % 256,
          federate &&& 0xff,
          (federate &&& 0xff00) % 256,
          message.length &&& 0xff,
          (message.length &&& 0xff00) % 256,
          (message.length &&& 0xff0000) % 256,
          (message.length &&& 0xff000000) % 256],
         message]
  else .error .invalidAddress

/-- `send_via_rti_timed` from `federate.c` (lines 97–122).  The
`current_time` argument stands for the value of `get_logical_time()` at the
moment of the call; the function offers the caller no way to pass any other
timestamp.  Writes the 17-byte header then the payload. -/
def send_via_rti_timed (port federate : Nat) (message : List Nat)
    (current_time : Int) : Except FedError (List (List Nat)) :=
  if port < 65536 ∧ federate < 65536 then
    .ok [TIMED_MESSAGE ::
          (encode_ushort port ++ encode_ushort federate
            ++ encode_int message.length ++ encode_ll current_time),
         message]
  else .error .invalidAddress

/-- The bytes that actually reach the wire: the concatenation of the
performed writes; a failed send writes nothing. -/
def sent_bytes (r : Except FedError (List (List Nat))) : List Nat :=
  match r with
  | .ok ws => ws.flatten
  | .error _ => []

/-- Modelled from the spec: the decoding procedure of §4.1/§5 — read the
1-byte tag, then the fixed-size header, then exactly `length` payload
bytes (for a `TIMED_MESSAGE`, the 8-byte timestamp sits between header and
payload, matching `handle_timed_message`'s read order). -/
def decodeFrame (bytes : List Nat) : Option Frame :=
  match bytes with
  | tag :: rest =>
    if tag = MESSAGE then
      match rest with
      | b0 :: b1 :: b2 :: b3 :: b4 :: b5 :: b6 :: b7 :: payload =>
        if payload.length = extract_uint b4 b5 b6 b7 then
          some (.plainMessage (extract_ushort b0 b1) (extract_ushort b2 b3) payload)
        else none
      | _ => none
    else if tag = TIMED_MESSAGE then
      match rest with
      | b0 :: b1 :: b2 :: b3 :: b4 :: b5 :: b6 :: b7 ::
          t0 :: t1 :: t2 :: t3 :: t4 :: t5 :: t6 :: t7 :: payload =>
        if payload.length = extract_uint b4 b5 b6 b7 then
          some (.timedMessage (extract_ushort b0 b1) (extract_ushort b2 b3) payload
                  (extract_ll t0 t1 t2 t3 t4 t5 t6 t7))
        else none
      | _ => none
    else none
  | [] => none

/-- One call into the external scheduler (`schedule_value` in the source):
the action is identified by the destination port it was looked up from
(`__action_for_port(port_id)`), together with the delay and the payload. -/
structure ScheduleCall where
  port : Nat
  delay : Int
  payload : List Nat
  deriving DecidableEq, Repr

/-- Observable events of the inbound listener: acquiring/releasing the
clock-advance mutex (`pthread_mutex_lock/unlock(&mutex)`) and calls into
the external scheduler. -/
inductive LEvent where
  | lock
  | unlock
  | schedule (c : ScheduleCall)
  deriving DecidableEq, Repr

/-- `handle_message` from `federate.c` (lines 255–273), embedded as a
function from the byte stream following the tag byte to the event trace it
produces.  It reads the 8-byte header, extracts `(port, federate, length)`
(via `extract_header`, spec §4.1), reads `length` payload bytes, and calls
`schedule_value` with delay `0LL`; a stream too short for the blocking
reads is a fatal transport failure. -/
def handle_message (input : List Nat) : Except FedError (List LEvent) :=
  match input with
  | b0 :: b1 :: b2 :: b3 :: b4 :: b5 :: b6 :: b7 :: rest =>
    if extract_uint b4 b5 b6 b7 ≤ rest.length then
      .ok [.schedule ⟨extract_ushort b0 b1, 0, rest.take (extract_uint b4 b5 b6 b7)⟩]
    else .error .shortRead
  | _ => .error .shortRead

/-- `handle_timed_message` from `federate.c` (lines 280–310): reads the
8-byte header, then the 8-byte timestamp, then the payload; acquires the
mutex, computes `delay = timestamp - get_logical_time()`, schedules, and
releases the mutex.  `logical_time` stands for the value
`get_logical_time()` returns while the mutex is held. -/
def handle_timed_message (input : List Nat) (logical_time : Int) :
    Except FedError (List LEvent) :=
  match input with
  | b0 :: b1 :: b2 :: b3 :: b4 :: b5 :: b6 :: b7 ::
      t0 :: t1 :: t2 :: t3 :: t4 :: t5 :: t6 :: t7 :: rest =>
    if extract_uint b4 b5 b6 b7 ≤ rest.length then
      .ok [.lock,
           .schedule ⟨extract_ushort b0 b1,
                      extract_ll t0 t1 t2 t3 t4 t5 t6 t7 - logical_time,
                      rest.take (extract_uint b4 b5 b6 b7)⟩,
           .unlock]
    else .error .shortRead
  | _ => .error .shortRead

/-- One iteration of the `listen_to_rti` loop (`federate.c` lines 315–338):
read one tag byte and dispatch; any tag other than `MESSAGE` or
`TIMED_MESSAGE` hits the `default` arm, `error(ERROR_UNRECOGNIZED_MESSAGE_TYPE)`,
which is fatal — per the spec's taxonomy (§7) a `protocolViolation`, the
frame is never delivered and the listener does not continue. -/
def listen_to_rti_step (input : List Nat) (logical_time : Int) :
    Except FedError (List LEvent) :=
  match input with
  | [] => .error .shortRead
  | tag :: rest =>
    if tag = MESSAGE then handle_message rest
    else if tag = TIMED_MESSAGE then handle_timed_message rest logical_time
    else .error .protocolViolation

/-- `get_start_time_from_rti` from `federate.c` (lines 208–242), embedded
as a function from the federate's physical time and the reply byte stream
to the pair (byte sequences written, result).  It writes the `TIMESTAMP`
marker and the little-endian 8-byte physical time
(`swap_bytes_if_big_endian_ll`: the wire is little-endian, spec §4.1),
blocks reading exactly 9 reply bytes, requires the reply tag to be
`TIMESTAMP` (else `exit(1)`, a `protocolViolation`), and returns the
decoded start time. -/
def get_start_time_from_rti (my_physical_time : Int) (reply : List Nat) :
    List (List Nat) × Except FedError Int :=
  ([[TIMESTAMP], encode_ll my_physical_time],
   match reply with
   | t :: r0 :: r1 :: r2 :: r3 :: r4 :: r5 :: r6 :: r7 :: _ =>
     if t = TIMESTAMP then .ok (extract_ll r0 r1 r2 r3 r4 r5 r6 r7)
     else .error .protocolViolation
   | _ => .error .shortRead)

/-- Observable events of `connect_to_rti`'s retry loop: a connection
attempt, a wait of `CONNECT_RETRY_INTERVAL` seconds between attempts
(`interrupted` records whether the `nanosleep` was cut short, in which case
the retry happens immediately), the fatal `exit(2)` on exhaustion
(`connectionExhausted` in the spec's taxonomy), and success. -/
inductive ConnEvent where
  | attempt
  | sleep (interval : Nat) (interrupted : Bool)
  | fatal (e : FedError)
  | connected
  deriving DecidableEq, Repr

/-- The retry loop of `connect_to_rti` (`federate.c` lines 132–183).
`fails k` tells whether the `connect` call of attempt `k` fails, and
`intr k` whether the sleep following attempt `k` is interrupted.  `budget`
is `CONNECT_NUM_RETRIES - count_retries` at loop entry: attempt `k` failing
increments `count_retries` to `k + 1`, and the loop exits fatally exactly
when that exceeds `CONNECT_NUM_RETRIES`, i.e. when the budget has reached
zero.  An interrupted sleep just restarts the loop body (the `continue`),
touching neither the retry count nor anything else. -/
def connect_loop (fails intr : Nat → Bool) (interval : Nat) :
    Nat → Nat → List ConnEvent
  | idx, budget =>
    if fails idx then
      match budget with
      | 0 => [.attempt, .fatal .connectionExhausted]
      | b + 1 =>
        .attempt :: .sleep interval (intr idx) ::
          connect_loop fails intr interval (idx + 1) b
    else [.attempt, .connected]

/-- `connect_to_rti` from `federate.c` (lines 132–183), as the trace of its
retry loop.  `max_retries` is `CONNECT_NUM_RETRIES` and `interval` is
`CONNECT_RETRY_INTERVAL`, both configuration constants from `rti.h` (not
under the provided sources) and therefore kept as parameters. -/
def connect_to_rti (max_retries interval : Nat) (fails intr : Nat → Bool) :
    List ConnEvent :=
  connect_loop fails intr interval 0 max_retries

/-! ### Codec lemmas -/

/-- Little-endian 16-bit round trip. -/
theorem extract_encode_ushort (v : Nat) (h : v < 65536) :
    extract_ushort (v % 256) (v / 256 % 256) = v := by
  unfold extract_ushort
  omega

/-- Little-endian 32-bit round trip. -/
theorem extract_encode_uint (v : Nat) (h : v < 4294967296) :
    extract_uint (v % 256) (v / 256 % 256) (v / 65536 % 256) (v / 16777216 % 256) = v := by
  unfold extract_uint
  omega

/-- Little-endian two's-complement 64-bit round trip. -/
theorem extract_encode_ll (v : Int) (h1 : -(2 ^ 63) ≤ v) (h2 : v < 2 ^ 63) :
    extract_ll ((v % 2 ^ 64).toNat % 256)
      ((v % 2 ^ 64).toNat / 256 % 256)
      ((v % 2 ^ 64).toNat / 65536 % 256)
      ((v % 2 ^ 64).toNat / 16777216 % 256)
      ((v % 2 ^ 64).toNat / 4294967296 % 256)
      ((v % 2 ^ 64).toNat / 1099511627776 % 256)
      ((v % 2 ^ 64).toNat / 281474976710656 % 256)
      ((v % 2 ^ 64).toNat / 72057594037927936 % 256) = v := by
  unfold extract_ll
  split <;> omega

/-! ### Connection-retry lemmas -/

/-- When every connection attempt fails, the retry loop's trace is one
attempt followed by one inter-attempt wait per remaining retry, then a
final attempt and the fatal exhaustion exit. -/
theorem connect_loop_all_fail (intr : Nat → Bool) (interval : Nat) :
    ∀ (budget idx : Nat),
      connect_loop (fun _ => true) intr interval idx budget =
        (List.range budget).flatMap
            (fun i => [ConnEvent.attempt, ConnEvent.sleep interval (intr (idx + i))])
          ++ [ConnEvent.attempt, ConnEvent.fatal FedError.connectionExhausted]
  | 0, idx => by
      simp [connect_loop]
  | budget + 1, idx => by
      have hcond : ((fun _ : Nat => true) idx) = true := rfl
      rw [connect_loop, if_pos hcond]
      have ih := connect_loop_all_fail intr interval budget (idx + 1)
      rw [List.range_succ_eq_map, List.flatMap_cons, List.flatMap_map]
      have hfun :
          (fun a => [ConnEvent.attempt, ConnEvent.sleep interval (intr (idx + Nat.succ a))])
            = fun a => [ConnEvent.attempt, ConnEvent.sleep interval (intr (idx + 1 + a))] := by
        funext a
        have : idx + Nat.succ a = idx + 1 + a := by omega
        rw [this]
      rw [hfun, List.append_assoc, ← ih]
      simp

/-- When every connection attempt fails, the loop performs `budget + 1`
attempts in total, whatever the sleep interruptions. -/
theorem connect_loop_all_fail_attempts (intr : Nat → Bool) (interval : Nat) :
    ∀ (budget idx : Nat),
      (connect_loop (fun _ => true) intr interval idx budget).count ConnEvent.attempt
        = budget + 1
  | 0, idx => by
      simp [connect_loop, List.count_cons]
  | budget + 1, idx => by
      have hcond : ((fun _ : Nat => true) idx) = true := rfl
      rw [connect_loop, if_pos hcond]
      have ih := connect_loop_all_fail_attempts intr interval budget (idx + 1)
      simp [List.count_cons, ih]

/-! ### Claim theorems -/

/-- **C1** (code bug): the claim asks that decoding the encoding of a
`PlainMessage` return the original `(port, federate, payload)` for every
`port, federate < 65536`.  The plain-message encoder `send_via_rti` stores
`port & 0xff00` into a byte without shifting, so the high byte on the wire
is always `0`: at `port = 256` the decoded port is `0`, not `256`.  This
theorem evaluates the code at that failing input. -/
theorem plain_roundtrip_broken_at_port_256 :
    send_via_rti 256 0 [] =
      .ok [[MESSAGE, 0, 0, 0, 0, 0, 0, 0, 0], []] ∧
    decodeFrame (sent_bytes (send_via_rti 256 0 [])) =
      some (Frame.plainMessage 0 0 []) ∧
    decodeFrame (sent_bytes (send_via_rti 256 0 [])) ≠
      some (Frame.plainMessage 256 0 []) := by decide

/-- **C2**: for every incoming `TIMED_MESSAGE` frame, the delay handed to
the external scheduler equals the frame's timestamp minus the logical time
read while the clock-advance mutex is held, and the call happens between
the lock and unlock. -/
theorem timed_message_delay (port fed : Nat) (payload : List Nat) (ts ltime : Int)
    (hp : port < 65536) (hf : fed < 65536) (hl : payload.length < 4294967296)
    (h1 : -(2 ^ 63) ≤ ts) (h2 : ts < 2 ^ 63) :
    handle_timed_message
        (encode_ushort port ++ encode_ushort fed ++ encode_int payload.length
          ++ encode_ll ts ++ payload) ltime
      = .ok [LEvent.lock,
             LEvent.schedule ⟨port, ts - ltime, payload⟩,
             LEvent.unlock] := by
  simp only [encode_ushort, encode_int, encode_ll, List.cons_append, List.nil_append]
  simp only [handle_timed_message]
  rw [extract_encode_ushort port hp, extract_encode_uint payload.length hl,
      extract_encode_ll ts h1 h2]
  simp [List.take_length]

/-- Witness for **C2**: logical time 100, incoming timestamp 150, payload
`[0x50]` — the scheduler is called with delay 50 under the lock. -/
theorem timed_message_delay_witness :
    handle_timed_message
        (encode_ushort 3 ++ encode_ushort 7 ++ encode_int 1 ++ encode_ll 150 ++ [0x50]) 100
      = .ok [LEvent.lock, LEvent.schedule ⟨3, 50, [0x50]⟩, LEvent.unlock] := by
  have h := timed_message_delay 3 7 [0x50] 150 100 (by decide) (by decide) (by decide)
      (by decide) (by decide)
  simpa using h

/-- **C3**: against a target that always fails, `connect_to_rti` performs
exactly `max_retries` additional attempts after the first failure (so
`max_retries + 1` attempts in all), with the `retry_interval` wait between
consecutive attempts, and ends with the fatal `connectionExhausted` exit
(`exit(2)`); an interrupted wait (`intr`) only shortens the wait — it
changes neither the attempt count nor the shape of the trace. -/
theorem connect_retry_exhaustion (max_retries interval : Nat) (intr : Nat → Bool) :
    connect_to_rti max_retries interval (fun _ => true) intr =
      (List.range max_retries).flatMap
          (fun i => [ConnEvent.attempt, ConnEvent.sleep interval (intr i)])
        ++ [ConnEvent.attempt, ConnEvent.fatal FedError.connectionExhausted] ∧
    (connect_to_rti max_retries interval (fun _ => true) intr).count ConnEvent.attempt
      = max_retries + 1 := by
  constructor
  · simpa using connect_loop_all_fail intr interval max_retries 0
  · exact connect_loop_all_fail_attempts intr interval max_retries 0

/-- **C4**: a send whose port or federate is not representable in 16 bits
fails with `invalidAddress` (the failing `assert` in the source) and
nothing is written to the connection, on both the plain and the timed
path. -/
theorem send_invalid_address (port fed : Nat) (msg : List Nat) (t : Int)
    (h : 65536 ≤ port ∨ 65536 ≤ fed) :
    send_via_rti port fed msg = .error FedError.invalidAddress ∧
    send_via_rti_timed port fed msg t = .error FedError.invalidAddress ∧
    sent_bytes (send_via_rti port fed msg) = [] ∧
    sent_bytes (send_via_rti_timed port fed msg t) = [] := by
  have hcond : ¬(port < 65536 ∧ fed < 65536) := by omega
  simp [send_via_rti, send_via_rti_timed, sent_bytes, hcond]

/-- Witness for **C4** at `port = 65536`. -/
theorem send_invalid_address_witness :
    send_via_rti 65536 7 [1] = .error FedError.invalidAddress ∧
    send_via_rti_timed 65536 7 [1] 0 = .error FedError.invalidAddress ∧
    sent_bytes (send_via_rti 65536 7 [1]) = [] ∧
    sent_bytes (send_via_rti_timed 65536 7 [1] 0) = [] :=
  send_invalid_address 65536 7 [1] 0 (Or.inl (by decide))

/-- **C5**: `get_start_time_from_rti` sends the `TIMESTAMP` marker and the
federate's physical time, reads exactly one 9-byte reply, and returns the
start time decoded from it. -/
theorem negotiate_start_time (pt st : Int)
    (h1 : -(2 ^ 63) ≤ st) (h2 : st < 2 ^ 63) :
    get_start_time_from_rti pt (TIMESTAMP :: encode_ll st)
      = ([[TIMESTAMP], encode_ll pt], .ok st) := by
  simp only [get_start_time_from_rti, encode_ll]
  rw [extract_encode_ll st h1 h2]
  simp

/-- Witness for **C5**: physical time 1000, RTI reply carrying 1200 —
the operation returns 1200. -/
theorem negotiate_start_time_witness :
    get_start_time_from_rti 1000 (TIMESTAMP :: encode_ll 1200)
      = ([[TIMESTAMP], encode_ll 1000], .ok 1200) :=
  negotiate_start_time 1000 1200 (by decide) (by decide)

/-- **C6**: in the listener loop, a frame with *any* tag other than
`MESSAGE`/`TIMED_MESSAGE` (a `TIMESTAMP` tag included), and in the
synchronous handshake read, a reply with *any* tag other than `TIMESTAMP`
(a `MESSAGE` or `TIMED_MESSAGE` tag included), is a fatal
`protocolViolation`: the result carries no scheduler events and the
listener does not continue.  The two scenarios carry independent tags,
each constrained only by its own expectation. -/
theorem unexpected_tag_fatal (ltag htag : Nat) (rest : List Nat) (ltime pt : Int)
    (r0 r1 r2 r3 r4 r5 r6 r7 : Nat) (junk : List Nat)
    (hm : ltag ≠ MESSAGE) (ht : ltag ≠ TIMED_MESSAGE) (hq : htag ≠ TIMESTAMP) :
    listen_to_rti_step (ltag :: rest) ltime = .error FedError.protocolViolation ∧
    (get_start_time_from_rti pt
        (htag :: r0 :: r1 :: r2 :: r3 :: r4 :: r5 :: r6 :: r7 :: junk)).2
      = .error FedError.protocolViolation := by
  constructor
  · simp [listen_to_rti_step, hm, ht]
  · simp [get_start_time_from_rti, hq]

/-- Witness for **C6** at the protocol's own crossed tags: a `TIMESTAMP`
frame arriving in the listener loop and a `MESSAGE`-tagged reply arriving
during the handshake are both rejected as `protocolViolation`. -/
theorem unexpected_tag_fatal_witness :
    listen_to_rti_step (TIMESTAMP :: [1, 2, 3]) 0 = .error FedError.protocolViolation ∧
    (get_start_time_from_rti 0 (MESSAGE :: 1 :: 2 :: 3 :: 4 :: 5 :: 6 :: 7 :: 8 :: [])).2
      = .error FedError.protocolViolation :=
  unexpected_tag_fatal TIMESTAMP MESSAGE [1, 2, 3] 0 0 1 2 3 4 5 6 7 8 []
    (by decide) (by decide) (by decide)

/-- **C7**: encoding `PlainMessage{port=3, federate=7, payload=[0x41,0x42]}`
puts exactly the 11 bytes
`[MESSAGE, 0x03, 0x00, 0x07, 0x00, 0x02, 0x00, 0x00, 0x00, 0x41, 0x42]`
on the wire, and decoding them reproduces the frame. -/
theorem plain_message_scenario :
    sent_bytes (send_via_rti 3 7 [0x41, 0x42])
      = [MESSAGE, 0x03, 0x00, 0x07, 0x00, 0x02, 0x00, 0x00, 0x00, 0x41, 0x42] ∧
    decodeFrame [MESSAGE, 0x03, 0x00, 0x07, 0x00, 0x02, 0x00, 0x00, 0x00, 0x41, 0x42]
      = some (Frame.plainMessage 3 7 [0x41, 0x42]) := by decide

/-- **C8**: every successfully handled plain `MESSAGE` frame is delivered
to the scheduler with delay exactly `0`, tagged with the destination port
decoded from the header. -/
theorem plain_message_zero_delay (b0 b1 b2 b3 b4 b5 b6 b7 : Nat) (rest : List Nat)
    (evs : List LEvent)
    (h : handle_message (b0 :: b1 :: b2 :: b3 :: b4 :: b5 :: b6 :: b7 :: rest) = .ok evs) :
    evs = [LEvent.schedule
            ⟨extract_ushort b0 b1, 0, rest.take (extract_uint b4 b5 b6 b7)⟩] := by
  simp only [handle_message] at h
  by_cases hc : extract_uint b4 b5 b6 b7 ≤ rest.length
  · rw [if_pos hc] at h
    injection h with h
    exact h.symm
  · rw [if_neg hc] at h
    exact absurd h (by simp)

/-- Witness for **C8**: a 1-byte payload to port 2 is scheduled with
delay 0. -/
theorem plain_message_zero_delay_witness :
    [LEvent.schedule ⟨2, 0, [9]⟩]
      = [LEvent.schedule
          ⟨extract_ushort 2 0, 0, List.take (extract_uint 1 0 0 0) [9, 9]⟩] :=
  plain_message_zero_delay 2 0 0 0 1 0 0 0 [9, 9]
    [LEvent.schedule ⟨2, 0, [9]⟩] (by decide)

/-- **C9**: the timestamp encoded into an outgoing `TIMED_MESSAGE` frame
is exactly the logical time at the moment of the call (the only timestamp
`send_via_rti_timed` can use): decoding the sent bytes recovers it. -/
theorem timed_send_timestamp (port fed : Nat) (msg : List Nat) (lt : Int)
    (hp : port < 65536) (hf : fed < 65536) (hl : msg.length < 4294967296)
    (h1 : -(2 ^ 63) ≤ lt) (h2 : lt < 2 ^ 63) :
    decodeFrame (sent_bytes (send_via_rti_timed port fed msg lt))
      = some (Frame.timedMessage port fed msg lt) := by
  rw [send_via_rti_timed, if_pos ⟨hp, hf⟩]
  simp only [sent_bytes, List.flatten_cons, List.flatten_nil, List.append_nil,
    encode_ushort, encode_int, encode_ll, List.cons_append, List.nil_append]
  simp only [decodeFrame, MESSAGE, TIMED_MESSAGE]
  rw [extract_encode_ushort port hp, extract_encode_ushort fed hf,
      extract_encode_uint msg.length hl, extract_encode_ll lt h1 h2]
  simp

/-- Witness for **C9** at logical time 42. -/
theorem timed_send_timestamp_witness :
    decodeFrame (sent_bytes (send_via_rti_timed 1 2 [9] 42))
      = some (Frame.timedMessage 1 2 [9] 42) :=
  timed_send_timestamp 1 2 [9] 42 (by decide) (by decide) (by decide)
    (by decide) (by decide)

/-- **C10**: the clock-advance mutex is taken only on the timed path — a
successful `handle_message` trace contains no lock or unlock event, while
a successful `handle_timed_message` trace is exactly a lock, the scheduler
call, and an unlock. -/
theorem lock_only_on_timed_path (inp tinp : List Nat) (lt : Int)
    (evs tevs : List LEvent)
    (h1 : handle_message inp = .ok evs)
    (h2 : handle_timed_message tinp lt = .ok tevs) :
    (∀ e ∈ evs, e ≠ LEvent.lock ∧ e ≠ LEvent.unlock) ∧
    ∃ c, tevs = [LEvent.lock, LEvent.schedule c, LEvent.unlock] := by
  constructor
  · unfold handle_message at h1
    split at h1
    · split at h1
      · injection h1 with h1
        subst h1
        intro e he
        simp only [List.mem_singleton] at he
        subst he
        exact ⟨by simp, by simp⟩
      · exact absurd h1 (by simp)
    · exact absurd h1 (by simp)
  · unfold handle_timed_message at h2
    split at h2
    · split at h2
      · injection h2 with h2
        exact ⟨_, h2.symm⟩
      · exact absurd h2 (by simp)
    · exact absurd h2 (by simp)

/-- Witness for **C10**: a concrete plain frame and a concrete timed frame
(timestamp 150, logical time 100). -/
theorem lock_only_on_timed_path_witness :
    (∀ e ∈ [LEvent.schedule ⟨2, 0, [9]⟩],
        e ≠ LEvent.lock ∧ e ≠ LEvent.unlock) ∧
    ∃ c, [LEvent.lock, LEvent.schedule ⟨2, 50, [9]⟩, LEvent.unlock]
        = [LEvent.lock, LEvent.schedule c, LEvent.unlock] :=
  lock_only_on_timed_path
    [2, 0, 0, 0, 1, 0, 0, 0, 9, 9]
    [2, 0, 0, 0, 1, 0, 0, 0, 150, 0, 0, 0, 0, 0, 0, 0, 9]
    100
    [LEvent.schedule ⟨2, 0, [9]⟩]
    [LEvent.lock, LEvent.schedule ⟨2, 50, [9]⟩, LEvent.unlock]
    (by decide) (by decide)

end Federate
